import Mathlib

/- Shallow embedding of the Investing Challenge Leaderboard core:
   src/lib/leaderboard.ts (numeric normalizer, locators, section extractors,
   aggregator) and the CSV parser from src/app/api/leaderboard/route.ts.
   Cells are Lean Strings, grids are lists of rows, JS null/undefined is
   Option.  JS numbers are modelled as exact rationals: every number this
   program manipulates is a finite decimal read from a spreadsheet cell, and
   the sums/products/quotients it forms are exact at these magnitudes, so an
   exact-rational semantics is the faithful idealisation.  We use a small
   normalised fraction type `Q` whose operations reduce inside the kernel
   (num/den with gcd normalisation). -/

namespace Leaderboard

/-- Exact rational number: `num / den`, kept normalised (den > 0, gcd = 1)
    by all the operations below. -/
structure Q where
  num : Int
  den : Nat
deriving DecidableEq

/-- Normalise `n / d` (callers keep `d > 0`; `d = 0` never arises and is
    mapped to `0` for totality). -/
def qnorm (n : Int) (d : Nat) : Q :=
  if d = 0 then ⟨0, 1⟩
  else
    let g := Nat.gcd n.natAbs d
    ⟨if n < 0 then -(Int.ofNat (n.natAbs / g)) else Int.ofNat (n.natAbs / g), d / g⟩

def qadd (a b : Q) : Q := qnorm (a.num * Int.ofNat b.den + b.num * Int.ofNat a.den) (a.den * b.den)

def qsub (a b : Q) : Q := qnorm (a.num * Int.ofNat b.den - b.num * Int.ofNat a.den) (a.den * b.den)

def qmul (a b : Q) : Q := qnorm (a.num * b.num) (a.den * b.den)

def qneg (a : Q) : Q := ⟨-a.num, a.den⟩

/-- Division; the zero-divisor case never arises in this program (the only
    quotient formed is by a positive initial capital). -/
def qdiv (a b : Q) : Q :=
  if b.num = 0 then ⟨0, 1⟩
  else qnorm (a.num * Int.ofNat b.den * (if b.num < 0 then -1 else 1)) (a.den * b.num.natAbs)

instance : Add Q := ⟨qadd⟩
instance : Sub Q := ⟨qsub⟩
instance : Mul Q := ⟨qmul⟩
instance : Div Q := ⟨qdiv⟩
instance : Neg Q := ⟨qneg⟩
instance (n : Nat) : OfNat Q n := ⟨⟨Int.ofNat n, 1⟩⟩

/-- `0 < a`, under the den > 0 invariant. -/
def qpos (a : Q) : Bool := 0 < a.num

/-- ASCII subset of the whitespace classes stripped by JS `String.prototype.trim`
    (the exotic Unicode space characters do not occur in sheet exports). -/
def isWsChar (c : Char) : Bool :=
  c = ' ' || c = '\t' || c = '\n' || c = '\r' || c = '\x0b' || c = '\x0c'

def trimCL (l : List Char) : List Char :=
  ((l.dropWhile isWsChar).reverse.dropWhile isWsChar).reverse

/-- Model of JS `s.trim()`. -/
def jsTrimStr (s : String) : String := String.mk (trimCL s.data)

def lowerChar (c : Char) : Char :=
  if 'A' ≤ c && c ≤ 'Z' then Char.ofNat (c.toNat + 32) else c

/-- `normalize` from leaderboard.ts: `(s ?? "").trim().toLowerCase()`
    (ASCII lowering; header text here is ASCII). -/
def normalize (s : String) : String := String.mk ((trimCL s.data).map lowerChar)

/-- Does `pat` occur at the start of `hay`? -/
def leadsWith : List Char → List Char → Bool
  | [], _ => true
  | _ :: _, [] => false
  | a :: as, b :: bs => a = b && leadsWith as bs

/-- Substring containment on char lists; models JS `String.prototype.includes`. -/
def containsCL : List Char → List Char → Bool
  | hay, pat =>
    if leadsWith pat hay then true
    else
      match hay with
      | [] => false
      | _ :: t => containsCL t pat

/-- Model of JS `s.includes(pat)`. -/
def strIncludes (s pat : String) : Bool := containsCL s.data pat.data

def isDigitCh (c : Char) : Bool := '0' ≤ c && c ≤ '9'

def digitsVal (l : List Char) : ℕ := l.foldl (fun a c => a * 10 + (c.toNat - 48)) 0

def digitsQ (l : List Char) : Q := ⟨Int.ofNat (digitsVal l), 1⟩

def qpow10 (k : Nat) : Q := ⟨Int.ofNat (10 ^ k), 1⟩

def qpow10I (e : Int) : Q :=
  if 0 ≤ e then ⟨Int.ofNat (10 ^ e.toNat), 1⟩ else ⟨1, 10 ^ (-e).toNat⟩

/-- Exponent suffix of a JS decimal literal: empty, or `e`/`E` with optional
    sign and at least one digit, consuming the whole rest. -/
def parseExpPart : List Char → Option Int
  | [] => some 0
  | c :: r =>
    if c = 'e' || c = 'E' then
      match r with
      | '+' :: r2 =>
          if r2 ≠ [] && r2.all isDigitCh then some (Int.ofNat (digitsVal r2)) else none
      | '-' :: r2 =>
          if r2 ≠ [] && r2.all isDigitCh then some (-(Int.ofNat (digitsVal r2))) else none
      | r2 =>
          if r2 ≠ [] && r2.all isDigitCh then some (Int.ofNat (digitsVal r2)) else none
    else none

/-- Unsigned JS decimal literal: `digits [. digits] [exp]` or `. digits [exp]`,
    requiring at least one digit overall. -/
def parseUnsignedDec (l : List Char) : Option Q :=
  let ip := l.takeWhile isDigitCh
  let r1 := l.dropWhile isDigitCh
  match r1 with
  | '.' :: r2 =>
    let fp := r2.takeWhile isDigitCh
    let r3 := r2.dropWhile isDigitCh
    if ip = [] && fp = [] then none
    else
      (parseExpPart r3).map
        (fun e => (digitsQ ip + digitsQ fp / qpow10 fp.length) * qpow10I e)
  | _ =>
    if ip = [] then none
    else (parseExpPart r1).map (fun e => digitsQ ip * qpow10I e)

def parseSignedDec : List Char → Option Q
  | '+' :: r => parseUnsignedDec r
  | '-' :: r => (parseUnsignedDec r).map qneg
  | l => parseUnsignedDec l

/-- Model of JS `Number(s)` for strings, restricted to finite results:
    `none` stands for NaN or ±Infinity (both make `parseNumber` return null).
    Covers the decimal-literal grammar (sign, integer/fraction digits,
    exponent) and the empty-string-is-zero rule; the non-decimal literal
    forms (hex/octal/binary, the word `Infinity`) are mapped to `none` —
    they cannot arise from the cleaned spreadsheet cells this program
    feeds in. -/
def jsStrToNum (s : String) : Option Q :=
  let l := trimCL s.data
  if l = [] then some 0 else parseSignedDec l

/-- The accounting-negative test `/^\(.*\)$/` of `parseNumber`: first char `(`,
    last char `)`, length ≥ 2, and no line terminator anywhere (`.` does not
    match line terminators in a JS regex). -/
def isAccountingNeg (t : String) : Bool :=
  match t.data with
  | '(' :: rest =>
      !rest.isEmpty && rest.getLastD ' ' = ')' &&
        rest.all (fun c => !(c = '\n' || c = '\r'))
  | _ => false

def dropHeadIf (x : Char) (l : List Char) : List Char :=
  match l with
  | c :: r => if c = x then r else l
  | [] => []

def dropLastIf (x : Char) (l : List Char) : List Char :=
  match l.getLast? with
  | some c => if c = x then l.dropLast else l
  | none => l

/-- The `cleaned` string of `parseNumber`, applied to the trimmed input:
    remove every `,` and `$`, strip one leading `(`, one trailing `)`,
    one trailing `%`, then trim. -/
def cleanedForm (t : String) : String :=
  String.mk
    (trimCL (dropLastIf '%' (dropLastIf ')' (dropHeadIf '('
      (t.data.filter (fun c => !(c = ',' || c = '$')))))))

/-- `parseNumber` from leaderboard.ts on a string cell (the number/null/undefined
    input shapes are handled at the call sites via `parseNumCell`). -/
def parseNumber (s : String) : Option Q :=
  let t := jsTrimStr s
  if t = "" then none
  else
    let neg := isAccountingNeg t
    match jsStrToNum (cleanedForm t) with
    | none => none
    | some n => some (if neg then qneg n else n)

/-- A cell fetched by index may be `undefined`; `parseNumber(undefined) = null`. -/
def parseNumCell (o : Option String) : Option Q :=
  match o with
  | none => none
  | some s => parseNumber s

/- ===== CSV parser (parseCSV in src/app/api/leaderboard/route.ts) ===== -/

/-- The character scan of `parseCSV`: state is the in-quotes flag, the
    current-cell buffer, the current-row buffer and the finished rows.
    Mirrors the `for` loop (with its one-character lookahead for `""` and
    `\r\n`) plus the final push of the pending cell and row. -/
def csvScan : List Char → Bool → List Char → List (List Char) → List (List (List Char)) → List (List (List Char))
  | [], _, cur, row, rows => rows ++ [row ++ [cur]]
  | '"' :: '"' :: cs, true, cur, row, rows => csvScan cs true (cur ++ ['"']) row rows
  | '"' :: cs, true, cur, row, rows => csvScan cs false cur row rows
  | c :: cs, true, cur, row, rows => csvScan cs true (cur ++ [c]) row rows
  | '"' :: cs, false, cur, row, rows => csvScan cs true cur row rows
  | ',' :: cs, false, cur, row, rows => csvScan cs false [] (row ++ [cur]) rows
  | '\r' :: '\n' :: cs, false, cur, row, rows => csvScan cs false [] [] (rows ++ [row ++ [cur]])
  | '\n' :: cs, false, cur, row, rows => csvScan cs false [] [] (rows ++ [row ++ [cur]])
  | '\r' :: cs, false, cur, row, rows => csvScan cs false [] [] (rows ++ [row ++ [cur]])
  | c :: cs, false, cur, row, rows => csvScan cs false (cur ++ [c]) row rows

def isBlankRow (r : List String) : Bool := r.all (fun v => jsTrimStr v = "")

/-- The trailing `while … rows.pop()` loop of `parseCSV`: drop rows from the
    end while every cell trims to the empty string. -/
def stripTrailingBlank (g : List (List String)) : List (List String) :=
  ((g.reverse.dropWhile isBlankRow)).reverse

/-- `parseCSV` from route.ts. -/
def parseCSV (text : String) : List (List String) :=
  stripTrailingBlank ((csvScan text.data false [] [] []).map (fun r => r.map String.mk))

/-- Plain comma/newline joining used to state the round-trip property:
    render each row as comma-joined text, join rows with `\n` (this is also
    what the Sheets-API fallback in route.ts emits for cells with no special
    characters). -/
def charJoin (sep : Char) : List (List Char) → List Char
  | [] => []
  | [x] => x
  | x :: xs => x ++ sep :: charJoin sep xs

def renderGrid (g : List (List String)) : String :=
  String.mk (charJoin '\n' (g.map (fun r => charJoin ',' (r.map String.data))))

/- ===== Label / header locators (leaderboard.ts) ===== -/

/-- JS array indexing `row[i]`: `undefined` when out of range or negative. -/
def cellAt (row : List String) (i : Int) : Option String :=
  if i < 0 then none else row.get? i.toNat

/-- JS `Array.prototype.indexOf`: first index of `x`, else `-1`. -/
def jsIndexOf (l : List String) (x : String) : Int :=
  match l.findIdx? (fun y => y = x) with
  | some n => Int.ofNat n
  | none => -1

/-- The "date & time" fuzzy rule on a normalized header cell. -/
def hasDT (s : String) : Bool := strIncludes s "date" && strIncludes s "time"

/-- JS `Array.prototype.findIndex` for the date-and-time fuzzy match. -/
def jsFindIndexDT (l : List String) : Int :=
  match l.findIdx? hasDT with
  | some n => Int.ofNat n
  | none => -1

/-- JS object assignment `obj[k] = v` on a string-keyed record modelled as an
    association list in insertion order: overwrite an existing key in place,
    otherwise append. -/
def recInsert : List (String × Int) → String → Int → List (String × Int)
  | [], k, v => [(k, v)]
  | (k0, v0) :: rest, k, v =>
    if k0 = k then (k0, v) :: rest else (k0, v0) :: recInsert rest k v

/-- `Object.keys(…).length` of the record is its length (keys are unique). -/
def recLookup (m : List (String × Int)) (k : String) : Option Int :=
  match m.find? (fun p => p.1 = k) with
  | some p => some p.2
  | none => none

/-- The inner `for (const header of required)` loop of `findHeaderRow` over one
    (already normalized) candidate row: on an exact `indexOf` hit record the
    column under the header text; a miss falls back to the date-and-time fuzzy
    `findIndex` when the header contains both substrings; any other miss
    breaks out of the loop. -/
def collectLoop (row : List String) : List String → List (String × Int) → List (String × Int)
  | [], acc => acc
  | h :: rest, acc =>
    let idx := jsIndexOf row h
    if idx = -1 then
      if strIncludes h "date" && strIncludes h "time" then
        let alt := jsFindIndexDT row
        if alt ≠ -1 then collectLoop row rest (recInsert acc h alt)
        else acc
      else acc
    else collectLoop row rest (recInsert acc h idx)

structure HeaderLoc where
  rowIndex : Nat
  cols : List (String × Int)
deriving DecidableEq

/-- Row scan of `findHeaderRow`: accept the first row for which the collected
    record has as many keys as `required` has entries. -/
def findHeaderRowAux (required : List String) : List (List String) → Nat → Option HeaderLoc
  | [], _ => none
  | row :: rest, r =>
    let nrow := row.map normalize
    let acc := collectLoop nrow required []
    if acc.length = required.length then some ⟨r, acc⟩
    else findHeaderRowAux required rest (r + 1)

/-- `findHeaderRow` from leaderboard.ts. -/
def findHeaderRow (grid : List (List String)) (requiredHeaders : List String) : Option HeaderLoc :=
  findHeaderRowAux (requiredHeaders.map normalize) grid 0

/-- Scan of `findCellAdjacentToLabel`: on the first cell whose normalized text
    equals the normalized label, return `parseNumber` of the cell immediately
    to its right (so an unparseable neighbour ends the whole search with
    null, exactly like the early `return` in the source). -/
def findCellAdjacentGo (target : String) : List (List String) → Option Q
  | [] => none
  | row :: rest =>
    match row.findIdx? (fun cell => normalize cell = target) with
    | some c => parseNumCell (cellAt row (Int.ofNat (c + 1)))
    | none => findCellAdjacentGo target rest

def findCellAdjacentToLabel (grid : List (List String)) (label : String) : Option Q :=
  findCellAdjacentGo (normalize label) grid

/- ===== Open positions extractor (parseOpenPositions) ===== -/

structure Position where
  quantity : Q
  openPrice : Option Q
  currentPrice : Option Q
  unrealizedGain : Q
deriving DecidableEq

/-- Column lookup from the header record; an absent key indexes the row at
    `undefined`, which behaves like an out-of-range index, modelled as -1
    (never happens once the header row was accepted). -/
def lookupColD (m : List (String × Int)) (k : String) : Int :=
  match recLookup m k with
  | some v => v
  | none => -1

/-- The per-row unrealized-gain formula of `parseOpenPositions`:
    `u ?? (qty && o !== null && cp !== null ? qty * (cp - o) : 0)`
    (note the JS truthiness test on `qty`: a zero quantity short-circuits
    to 0). -/
def unrealOf (qty : Q) (o cp u : Option Q) : Q :=
  match u with
  | some x => x
  | none =>
    match o, cp with
    | some ov, some cv => if qty.num = 0 then 0 else qty * (cv - ov)
    | _, _ => 0

/-- The row loop of `parseOpenPositions`, over the rows below the header;
    `r` is the absolute row index, `start` the first data row index.  An
    all-absent row is skipped while `r ≤ start + 2` and stops the scan once
    `r > start + 2`. -/
def openLoopAux (qCol oCol cCol uCol : Int) (start : Nat) : List (List String) → Nat → List Position × Q
  | [], _ => ([], 0)
  | row :: rest, r =>
    let q := parseNumCell (cellAt row qCol)
    let o := parseNumCell (cellAt row oCol)
    let cp := parseNumCell (cellAt row cCol)
    let u := parseNumCell (cellAt row uCol)
    if q.isNone && o.isNone && cp.isNone && u.isNone then
      if start + 2 < r then ([], 0)
      else openLoopAux qCol oCol cCol uCol start rest (r + 1)
    else
      let qty := match q with | some v => v | none => 0
      let unreal := unrealOf qty o cp u
      let res := openLoopAux qCol oCol cCol uCol start rest (r + 1)
      (⟨qty, o, cp, unreal⟩ :: res.1, unreal + res.2)

def openHeadersList : List String := ["quantity", "open price", "current price", "unrealized gain"]

/-- `parseOpenPositions` from leaderboard.ts. -/
def parseOpenPositions (grid : List (List String)) : List Position × Q :=
  match findHeaderRow grid openHeadersList with
  | none => ([], 0)
  | some h =>
    let start := h.rowIndex + 1
    let qCol := lookupColD h.cols "quantity"
    let oCol := lookupColD h.cols "open price"
    let cCol := lookupColD h.cols "current price"
    let uCol := lookupColD h.cols "unrealized gain"
    openLoopAux qCol oCol cCol uCol start (grid.drop start) start

/- ===== Journal extractor (parseJournalTotals) ===== -/

structure JournalTotals where
  creditsTotal : Q
  debitsTotal : Q
  trades : Nat
  lastActivity : Option String
deriving DecidableEq

def journalHeadersList : List String :=
  ["action", "date & time", "total $ received", "status", "action", "date & time", "total $ paid"]

/-- One row of the primary journal loop: is there any non-empty, non-"0"
    cell (after normalize)? -/
def anyActionRow (row : List String) : Bool :=
  row.any (fun cell => normalize cell ≠ "" && normalize cell ≠ "0")

def isBlankCell (s : String) : Bool := jsTrimStr s = ""

/-- The primary row loop of `parseJournalTotals` (only reachable if the
    combined seven-header search succeeds).  `r` is the absolute row index;
    the early-stop peeks at `grid.slice(r, r+10)`, i.e. the current row and
    the nine after it. -/
def journalLoopAux (receivedCol paidCol dateCol : Int) (start : Nat) :
    List (List String) → Nat → Q → Q → Nat → Option String → JournalTotals
  | [], _, credits, debits, trades, lastA => ⟨credits, debits, trades, lastA⟩
  | row :: rest, r, credits, debits, trades, lastA =>
    let rcv := if 0 ≤ receivedCol then parseNumCell (cellAt row receivedCol) else none
    let pd := if 0 ≤ paidCol then parseNumCell (cellAt row paidCol) else none
    let trades2 := if anyActionRow row && (rcv.isSome || pd.isSome) then trades + 1 else trades
    let credits2 := match rcv with | some n => credits + n | none => credits
    let debits2 := match pd with | some n => debits + n | none => debits
    let lastA2 :=
      if 0 ≤ dateCol then
        let dt := jsTrimStr (match cellAt row dateCol with | some s => s | none => "")
        if dt ≠ "" then some dt else lastA
      else lastA
    if rcv.isNone && pd.isNone && start + 20 < r &&
        ((row :: rest).take 10).all (fun x => x.all isBlankCell) then
      ⟨credits2, debits2, trades2, lastA2⟩
    else journalLoopAux receivedCol paidCol dateCol start rest (r + 1) credits2 debits2 trades2 lastA2

/-- `Math.max(...dateCols)` over the fuzzy date-and-time columns, `-1` when
    there are none. -/
def rightmostDateCol (nrow : List String) : Int :=
  ((nrow.enum.filter (fun p => hasDT p.2)).map (fun p => Int.ofNat p.1)).foldl max (-1)

/-- The fallback inner sum of `parseJournalTotals`: from the row after the
    first header hit to the end of the grid. -/
def fallbackSumAux (receivedCol paidCol : Int) : List (List String) → Q → Q → Nat → Q × Q × Nat
  | [], credits, debits, trades => (credits, debits, trades)
  | row :: rest, credits, debits, trades =>
    let credits2 := match if 0 ≤ receivedCol then parseNumCell (cellAt row receivedCol) else none with
      | some n => credits + n
      | none => credits
    let debits2 := match if 0 ≤ paidCol then parseNumCell (cellAt row paidCol) else none with
      | some n => debits + n
      | none => debits
    let cellv := match cellAt row receivedCol with
      | some s => s
      | none => match cellAt row paidCol with | some s => s | none => ""
    let trades2 := if jsTrimStr cellv ≠ "" then trades + 1 else trades
    fallbackSumAux receivedCol paidCol rest credits2 debits2 trades2

/-- The fallback row scan: find the first row naming `total $ received` or
    `total $ paid` and sum forward from the next row; no hit leaves all
    totals zero. -/
def journalFallback : List (List String) → Q × Q × Nat
  | [] => (0, 0, 0)
  | row :: rest =>
    let nrow := row.map normalize
    let receivedCol := jsIndexOf nrow "total $ received"
    let paidCol := jsIndexOf nrow "total $ paid"
    if receivedCol ≠ -1 || paidCol ≠ -1 then
      fallbackSumAux receivedCol paidCol rest 0 0 0
    else journalFallback rest

/-- `parseJournalTotals` from leaderboard.ts.  The fallback path never sets
    `lastActivity`. -/
def parseJournalTotals (grid : List (List String)) : JournalTotals :=
  match findHeaderRow grid journalHeadersList with
  | some h =>
    let nrow := (match grid.get? h.rowIndex with | some row => row | none => []).map normalize
    let receivedCol := jsIndexOf nrow "total $ received"
    let paidCol := jsIndexOf nrow "total $ paid"
    let dateCol := rightmostDateCol nrow
    let start := h.rowIndex + 1
    journalLoopAux receivedCol paidCol dateCol start (grid.drop start) start 0 0 0 none
  | none =>
    let s := journalFallback grid
    ⟨s.1, s.2.1, s.2.2, none⟩

/- ===== Aggregator (computePlayerStatsFromSheetCSV) ===== -/

structure PlayerDetails where
  creditsTotal : Q
  debitsTotal : Q
deriving DecidableEq

structure PlayerStats where
  name : String
  realizedPL : Q
  unrealizedPL : Q
  totalPL : Q
  returnPct : Q
  equity : Q
  trades : Nat
  lastActivity : Option String
  details : PlayerDetails
deriving DecidableEq

/-- `computePlayerStatsFromSheetCSV` from leaderboard.ts.  The initial
    capital is an externally supplied JS number: `none` models a non-finite
    value (NaN or ±Infinity), `some v` a finite one. -/
def computePlayerStatsFromSheetCSV (name : String) (csvText : String)
    (initialCapital : Option Q) : PlayerStats :=
  let grid := parseCSV csvText
  let realizedFromLabel := findCellAdjacentToLabel grid "Realized P/L:"
  let pos := parseOpenPositions grid
  let journal := parseJournalTotals grid
  let realizedPL :=
    match realizedFromLabel with
    | some v => v
    | none => journal.creditsTotal - journal.debitsTotal
  let unrealizedPL := pos.2
  let totalPL := realizedPL + unrealizedPL
  let initial :=
    match initialCapital with
    | some v => if qpos v then v else 10000
    | none => 10000
  { name := name
    realizedPL := realizedPL
    unrealizedPL := unrealizedPL
    totalPL := totalPL
    returnPct := totalPL / initial
    equity := initial + totalPL
    trades := journal.trades
    lastActivity := journal.lastActivity
    details := ⟨journal.creditsTotal, journal.debitsTotal⟩ }

/- ===== Auxiliary definitions used by the verification ===== -/

/-- A cell character that needs no CSV quoting: not a separator, quote or
    line terminator. -/
def cleanChB (c : Char) : Bool := !(c = ',' || c = '"' || c = '\n' || c = '\r')

/-- The key list of the header record. -/
def keysOf (m : List (String × Int)) : List String := m.map Prod.fst

/-- Modelled from the spec sentence on open-position rows: the explicit
    unrealized-gain cell if present, else quantity × (currentPrice −
    openPrice) when both prices are present, else 0 (with quantity already
    defaulted to 0 by the caller). -/
def rowGainSpec (qty : Q) (o cp u : Option Q) : Q :=
  match u with
  | some x => x
  | none =>
    match o, cp with
    | some ov, some cv => qty * (cv - ov)
    | _, _ => 0

/- ===== Supporting lemmas ===== -/

theorem csvScan_clean_char (c : Char) (h1 : c ≠ '"') (h2 : c ≠ ',') (h3 : c ≠ '\n') (h4 : c ≠ '\r')
    (cs : List Char) (cur : List Char) (row : List (List Char)) (rows : List (List (List Char))) :
    csvScan (c :: cs) false cur row rows = csvScan cs false (cur ++ [c]) row rows := by
  rw [csvScan.eq_def]
  split
  all_goals first
    | (rename_i hb; exact absurd hb (by decide))
    | (rename_i heq hb; first
        | exact List.noConfusion heq
        | (injection heq with hc hcs; try subst hcs;
           first
            | exact absurd hc h1 | exact absurd hc h2 | exact absurd hc h3 | exact absurd hc h4
            | (subst hc; rfl)))
    | (rename_i heq; exact List.noConfusion heq)

theorem csvScan_cell (s : List Char) (rest : List Char) (cur : List Char)
    (row : List (List Char)) (rows : List (List (List Char)))
    (hs : ∀ c ∈ s, cleanChB c = true) :
    csvScan (s ++ rest) false cur row rows = csvScan rest false (cur ++ s) row rows := by
  induction s generalizing cur with
  | nil => simp
  | cons c s ih =>
    have hc := hs c (by simp)
    simp only [cleanChB, Bool.not_eq_true', Bool.or_eq_false_iff, decide_eq_false_iff_not] at hc
    rw [List.cons_append, csvScan_clean_char c hc.1.1.2 hc.1.1.1 hc.1.2 hc.2,
        ih (cur ++ [c]) (fun x hx => hs x (by simp [hx]))]
    simp

theorem charJoin_cons_cons (sep : Char) (x : List Char) (xs : List (List Char)) (h : xs ≠ []) :
    charJoin sep (x :: xs) = x ++ sep :: charJoin sep xs := by
  cases xs with
  | nil => exact absurd rfl h
  | cons y ys => rfl

theorem csvScan_row (pre : List (List Char)) (lst : List Char) (rest : List Char)
    (row : List (List Char)) (rows : List (List (List Char)))
    (h : ∀ cell ∈ pre ++ [lst], ∀ c ∈ cell, cleanChB c = true) :
    csvScan (charJoin ',' (pre ++ [lst]) ++ rest) false [] row rows =
      csvScan rest false lst (row ++ pre) rows := by
  induction pre generalizing row with
  | nil =>
    simp only [List.nil_append, charJoin]
    rw [csvScan_cell lst rest [] row rows (h lst (by simp))]
    simp
  | cons p pre ih =>
    rw [List.cons_append, charJoin_cons_cons ',' p (pre ++ [lst]) (by simp),
        List.append_assoc, csvScan_cell p _ [] row rows (h p (by simp)), List.nil_append,
        List.cons_append]
    have hcomma : csvScan (',' :: (charJoin ',' (pre ++ [lst]) ++ rest)) false p row rows =
        csvScan (charJoin ',' (pre ++ [lst]) ++ rest) false [] (row ++ [p]) rows := rfl
    rw [hcomma, ih (row ++ [p]) (fun cell hc => h cell (by simp at hc ⊢; tauto))]
    simp

theorem csvScan_grid (gpre : List (List (List Char))) (glast : List (List Char))
    (rows : List (List (List Char)))
    (hne : ∀ R ∈ gpre ++ [glast], R ≠ [])
    (hcl : ∀ R ∈ gpre ++ [glast], ∀ cell ∈ R, ∀ c ∈ cell, cleanChB c = true) :
    csvScan (charJoin '\n' ((gpre ++ [glast]).map (charJoin ','))) false [] [] rows =
      rows ++ gpre ++ [glast] := by
  induction gpre generalizing rows with
  | nil =>
    simp only [List.nil_append, List.map_cons, List.map_nil, charJoin]
    obtain ⟨pre, lst, rfl⟩ : ∃ pre lst, glast = pre ++ [lst] := by
      rcases List.eq_nil_or_concat glast with h | ⟨L, b, h⟩
      · exact absurd h (hne glast (by simp))
      · exact ⟨L, b, by simpa using h⟩
    have hr := csvScan_row pre lst [] [] rows (hcl (pre ++ [lst]) (by simp))
    simp only [List.append_nil, List.nil_append] at hr
    rw [hr]
    simp only [List.append_nil]
    rfl
  | cons R gpre ih =>
    rw [List.cons_append, List.map_cons,
        charJoin_cons_cons '\n' (charJoin ',' R) ((gpre ++ [glast]).map (charJoin ',')) (by simp)]
    obtain ⟨pre, lst, rfl⟩ : ∃ pre lst, R = pre ++ [lst] := by
      rcases List.eq_nil_or_concat R with h | ⟨L, b, h⟩
      · exact absurd h (hne R (by simp))
      · exact ⟨L, b, by simpa using h⟩
    rw [List.append_assoc, csvScan_row pre lst _ [] rows (hcl (pre ++ [lst]) (by simp)),
        List.nil_append]
    have hnl : csvScan ('\n' :: charJoin '\n' ((gpre ++ [glast]).map (charJoin ','))) false lst pre rows =
        csvScan (charJoin '\n' ((gpre ++ [glast]).map (charJoin ','))) false [] [] (rows ++ [pre ++ [lst]]) := rfl
    rw [hnl, ih (rows ++ [pre ++ [lst]]) (fun x hx => hne x (by simp at hx ⊢; tauto))
        (fun x hx => hcl x (by simp at hx ⊢; tauto))]
    simp

theorem strMk_data (s : String) : String.mk s.data = s := rfl

theorem mem_mapped_grid (g1 : List (List String)) (g2 : List String) (R : List (List Char))
    (hR : R ∈ g1.map (fun r => r.map String.data) ++ [g2.map String.data]) :
    ∃ r, r ∈ g1 ++ [g2] ∧ R = r.map String.data := by
  rcases List.mem_append.1 hR with h | h
  · obtain ⟨r, hr, rfl⟩ := List.mem_map.1 h
    exact ⟨r, List.mem_append.2 (Or.inl hr), rfl⟩
  · have hg : R = g2.map String.data := by simpa using h
    exact ⟨g2, List.mem_append.2 (Or.inr (by simp)), hg⟩

theorem keysOf_recInsert (m : List (String × Int)) (k : String) (v : Int) :
    keysOf (recInsert m k v) = if k ∈ keysOf m then keysOf m else keysOf m ++ [k] := by
  induction m with
  | nil => simp [recInsert, keysOf]
  | cons p rest ih =>
    obtain ⟨k0, v0⟩ := p
    by_cases h : k0 = k
    · subst h
      simp [recInsert, keysOf]
    · simp only [recInsert, if_neg h, keysOf, List.map_cons] at ih ⊢
      rw [ih]
      by_cases hk : k ∈ rest.map Prod.fst
      · simp [hk, Ne.symm h]
      · simp [hk, Ne.symm h]

theorem nodup_keysOf_recInsert (m : List (String × Int)) (k : String) (v : Int)
    (h : (keysOf m).Nodup) : (keysOf (recInsert m k v)).Nodup := by
  rw [keysOf_recInsert]
  by_cases hk : k ∈ keysOf m
  · simpa [hk] using h
  · simp only [if_neg hk]
    simpa [List.nodup_append, hk] using h

theorem mem_keysOf_collectLoop (row : List String) (req : List String) :
    ∀ (acc : List (String × Int)) (x : String),
      x ∈ keysOf (collectLoop row req acc) → x ∈ keysOf acc ∨ x ∈ req := by
  induction req with
  | nil => intro acc x hx; exact Or.inl hx
  | cons h rest ih =>
    intro acc x hx
    simp only [collectLoop] at hx
    have step : ∀ (v : Int), x ∈ keysOf (collectLoop row rest (recInsert acc h v)) →
        x ∈ keysOf acc ∨ x ∈ h :: rest := by
      intro v hv
      rcases ih (recInsert acc h v) x hv with hacc | hrest
      · rw [keysOf_recInsert] at hacc
        by_cases hmem : h ∈ keysOf acc
        · rw [if_pos hmem] at hacc; exact Or.inl hacc
        · rw [if_neg hmem] at hacc
          rcases List.mem_append.1 hacc with h1 | h1
          · exact Or.inl h1
          · simp at h1; subst h1; exact Or.inr (by simp)
      · exact Or.inr (by simp [hrest])
    split at hx
    · split at hx
      · split at hx
        · exact step _ hx
        · exact Or.inl hx
      · exact Or.inl hx
    · exact step _ hx

theorem nodup_keysOf_collectLoop (row : List String) (req : List String) :
    ∀ (acc : List (String × Int)), (keysOf acc).Nodup →
      (keysOf (collectLoop row req acc)).Nodup := by
  induction req with
  | nil => intro acc h; exact h
  | cons h rest ih =>
    intro acc hacc
    simp only [collectLoop]
    split
    · split
      · split
        · exact ih _ (nodup_keysOf_recInsert acc h _ hacc)
        · exact hacc
      · exact hacc
    · exact ih _ (nodup_keysOf_recInsert acc h _ hacc)

theorem length_collectLoop_le (row : List String) (req : List String) :
    (collectLoop row req []).length ≤ req.toFinset.card := by
  have hnodup : (keysOf (collectLoop row req [])).Nodup :=
    nodup_keysOf_collectLoop row req [] (by simp [keysOf])
  have hsub : (keysOf (collectLoop row req [])).toFinset ⊆ req.toFinset := by
    intro x hx
    rw [List.mem_toFinset] at hx ⊢
    rcases mem_keysOf_collectLoop row req [] x hx with h | h
    · simp [keysOf] at h
    · exact h
  have hlen : (collectLoop row req []).length = (keysOf (collectLoop row req [])).length := by
    simp [keysOf]
  rw [hlen, ← List.toFinset_card_of_nodup hnodup]
  exact Finset.card_le_card hsub

theorem findHeaderRowAux_none_of_dup (req : List String)
    (hcard : req.toFinset.card < req.length) :
    ∀ (grid : List (List String)) (r : Nat), findHeaderRowAux req grid r = none := by
  intro grid
  induction grid with
  | nil => intro r; rfl
  | cons row rest ih =>
    intro r
    have hne : (collectLoop (row.map normalize) req []).length ≠ req.length := by
      have := length_collectLoop_le (row.map normalize) req
      omega
    simp only [findHeaderRowAux, if_neg hne]
    exact ih (r + 1)

/-- The combined seven-header journal search can never succeed: its required
    list has only five distinct names, and the header record is keyed by
    name. -/
theorem journal_header_never_found (grid : List (List String)) :
    findHeaderRow grid journalHeadersList = none := by
  have hnorm : journalHeadersList.map normalize = journalHeadersList := by decide
  unfold findHeaderRow
  rw [hnorm]
  exact findHeaderRowAux_none_of_dup journalHeadersList (by decide) grid 0

theorem qmul_num_zero (a b : Q) (h : a.num = 0) : a * b = 0 := by
  show qmul a b = 0
  unfold qmul qnorm
  rw [h]
  by_cases hd : a.den * b.den = 0
  · simp [hd]
    rfl
  · simp only [if_neg hd, Int.zero_mul, Int.natAbs_zero, Nat.gcd_zero_left, Nat.zero_div,
      Nat.div_self (Nat.pos_of_ne_zero hd)]
    rfl

/- ===== Claim theorems ===== -/

/-- Claim C1 (code bug evidence): on a grid whose single header row holds
    exactly the two action columns, two date-and-time columns, `total $
    received` and `total $ paid` that the spec's primary journal path
    requires, `findHeaderRow` still returns nothing — the seven required
    headers collapse to five record keys — so `parseJournalTotals` runs the
    fallback: it counts the `abc` row as a trade (non-blank received cell)
    and leaves `lastActivity` unset, although the primary path would count
    only one trade and report `1/2/2025 11:00`. -/
theorem journal_primary_path_dead_on_intended_grid :
    findHeaderRow
        [["action", "date & time", "total $ received", "status", "action", "date & time", "total $ paid"],
         ["buy", "1/1/2025 10:00", "100", "open", "sell", "1/2/2025 11:00", "40"],
         ["", "", "abc", "", "", "", ""]] journalHeadersList = none ∧
    parseJournalTotals
        [["action", "date & time", "total $ received", "status", "action", "date & time", "total $ paid"],
         ["buy", "1/1/2025 10:00", "100", "open", "sell", "1/2/2025 11:00", "40"],
         ["", "", "abc", "", "", "", ""]] = ⟨100, 40, 2, none⟩ := by
  decide

/-- Claim C2 (counterexample): for the parenthesised input `(-5)` whose inner
    text carries its own minus sign, `parseNumber` returns +5, not the −5
    the claim predicts — the code negates the signed parsed value, it does
    not take a magnitude. -/
theorem parseNumber_paren_inner_minus_counterexample :
    parseNumber "(-5)" = some 5 ∧ ¬ parseNumber "(-5)" = some (-5) := by
  decide

/-- Claim C2 (amended): for every input whose trimmed form is wrapped in
    parentheses (the accounting test) and whose cleaned inner text parses to
    a finite number q, `parseNumber` returns the negation of the signed
    parsed value −q (so signs cancel for an inner minus). -/
theorem parseNumber_paren_negates_signed_value :
    ∀ (s : String) (q : Q), isAccountingNeg (jsTrimStr s) = true →
      jsStrToNum (cleanedForm (jsTrimStr s)) = some q →
      parseNumber s = some (qneg q) := by
  intro s q hneg hnum
  have ht : ¬ jsTrimStr s = "" := by
    intro he
    rw [he] at hneg
    exact absurd hneg (by decide)
  unfold parseNumber
  simp [ht, hneg, hnum]

/-- Witness for the amended C2 theorem at the concrete input `(500)`. -/
theorem parseNumber_paren_negates_signed_value_witness :
    parseNumber "(500)" = some (qneg 500) :=
  parseNumber_paren_negates_signed_value "(500)" 500 (by decide) (by decide)

/-- Claim C3: realizedPL is the value next to the first `Realized P/L:`
    label when one parses, else creditsTotal − debitsTotal; in particular a
    labelless sheet with journal credits 1000 and debits 400 yields 600. -/
theorem realizedPL_from_label_or_journal :
    (∀ (name text : String) (ic : Option Q),
      (computePlayerStatsFromSheetCSV name text ic).realizedPL =
        (findCellAdjacentToLabel (parseCSV text) "Realized P/L:").getD
          ((parseJournalTotals (parseCSV text)).creditsTotal -
            (parseJournalTotals (parseCSV text)).debitsTotal)) ∧
    (computePlayerStatsFromSheetCSV "p" "total $ received,total $ paid\n1000,400" none).realizedPL
      = 600 := by
  constructor
  · intro name text ic
    cases hl : findCellAdjacentToLabel (parseCSV text) "Realized P/L:" with
    | none => simp [computePlayerStatsFromSheetCSV, hl]
    | some v => simp [computePlayerStatsFromSheetCSV, hl]
  · decide

/-- Claim C4: the open-positions row contribution is the explicit gain cell
    if present, else qty × (current − open) when both prices are present,
    else 0 (quantity defaulting to 0); an all-absent row is skipped while
    its index is at most start+2 and stops the scan beyond that; the
    two-row example sums to 40. -/
theorem openPositions_contributions :
    (∀ (qty : Q) (o cp u : Option Q), unrealOf qty o cp u = rowGainSpec qty o cp u) ∧
    (∀ (qCol oCol cCol uCol : Int) (start : Nat) (row : List String)
        (rest : List (List String)) (r : Nat),
      parseNumCell (cellAt row qCol) = none →
      parseNumCell (cellAt row oCol) = none →
      parseNumCell (cellAt row cCol) = none →
      parseNumCell (cellAt row uCol) = none →
      (r ≤ start + 2 →
        openLoopAux qCol oCol cCol uCol start (row :: rest) r =
          openLoopAux qCol oCol cCol uCol start rest (r + 1)) ∧
      (start + 2 < r →
        openLoopAux qCol oCol cCol uCol start (row :: rest) r = ([], 0))) ∧
    (parseOpenPositions
        [["Quantity", "Open Price", "Current Price", "Unrealized Gain"],
         ["10", "5", "7", ""], ["-5", "", "", "20"]]).2 = 40 := by
  refine ⟨?_, ?_, by decide⟩
  · intro qty o cp u
    cases u with
    | some x => rfl
    | none =>
      cases o with
      | none => cases cp <;> rfl
      | some ov =>
        cases cp with
        | none => rfl
        | some cv =>
          simp only [unrealOf, rowGainSpec]
          by_cases h : qty.num = 0
          · rw [if_pos h]
            exact (qmul_num_zero qty (cv - ov) h).symm
          · rw [if_neg h]
  · intro qCol oCol cCol uCol start row rest r h1 h2 h3 h4
    constructor
    · intro hle
      simp only [openLoopAux, h1, h2, h3, h4, Option.isNone_none, Bool.and_self, if_true]
      rw [if_neg (by omega)]
    · intro hgt
      simp only [openLoopAux, h1, h2, h3, h4, Option.isNone_none, Bool.and_self, if_true]
      rw [if_pos hgt]

/-- Witness for C4's conditional parts at a concrete blank row. -/
theorem openPositions_contributions_witness :
    openLoopAux 0 1 2 3 1 [[""]] 1 = openLoopAux 0 1 2 3 1 [] 2 ∧
    openLoopAux 0 1 2 3 1 [[""]] 4 = ([], 0) :=
  ⟨(openPositions_contributions.2.1 0 1 2 3 1 [""] [] 1
      (by decide) (by decide) (by decide) (by decide)).1 (by decide),
   (openPositions_contributions.2.1 0 1 2 3 1 [""] [] 4
      (by decide) (by decide) (by decide) (by decide)).2 (by decide)⟩

/-- Claim C5: totalPL = realizedPL + unrealizedPL always; with a finite
    positive initial capital v, returnPct = totalPL / v and equity =
    v + totalPL; with a non-finite or non-positive initial capital the
    default 10000 is used instead. -/
theorem returnPct_equity_initial_default :
    ∀ (name text : String) (ic : Option Q),
      (computePlayerStatsFromSheetCSV name text ic).totalPL =
          (computePlayerStatsFromSheetCSV name text ic).realizedPL +
            (computePlayerStatsFromSheetCSV name text ic).unrealizedPL ∧
      (∀ v : Q, ic = some v → qpos v = true →
        (computePlayerStatsFromSheetCSV name text ic).returnPct =
            (computePlayerStatsFromSheetCSV name text ic).totalPL / v ∧
          (computePlayerStatsFromSheetCSV name text ic).equity =
            v + (computePlayerStatsFromSheetCSV name text ic).totalPL) ∧
      ((∀ v : Q, ic = some v → qpos v = false) →
        (computePlayerStatsFromSheetCSV name text ic).returnPct =
            (computePlayerStatsFromSheetCSV name text ic).totalPL / 10000 ∧
          (computePlayerStatsFromSheetCSV name text ic).equity =
            10000 + (computePlayerStatsFromSheetCSV name text ic).totalPL) := by
  intro name text ic
  refine ⟨rfl, ?_, ?_⟩
  · intro v hv hpos
    subst hv
    constructor
    · simp [computePlayerStatsFromSheetCSV, hpos]
    · simp [computePlayerStatsFromSheetCSV, hpos]
  · intro hinv
    cases ic with
    | none => exact ⟨by simp [computePlayerStatsFromSheetCSV], by simp [computePlayerStatsFromSheetCSV]⟩
    | some v =>
      have hv := hinv v rfl
      exact ⟨by simp [computePlayerStatsFromSheetCSV, hv], by simp [computePlayerStatsFromSheetCSV, hv]⟩

/-- Witness for C5 at initial capital 0 (non-positive, so the 10000 default
    applies). -/
theorem returnPct_equity_initial_default_witness :
    (computePlayerStatsFromSheetCSV "p" "" (some 0)).returnPct =
        (computePlayerStatsFromSheetCSV "p" "" (some 0)).totalPL / 10000 ∧
      (computePlayerStatsFromSheetCSV "p" "" (some 0)).equity =
        10000 + (computePlayerStatsFromSheetCSV "p" "" (some 0)).totalPL :=
  (returnPct_equity_initial_default "p" "" (some 0)).2.2
    (fun v hv => by injection hv with h; subst h; decide)

/-- Claim C6: the numeric normalizer's concrete examples, and totality —
    whenever the cleaned text fails the finite numeric parse, the result is
    the absent marker (never an error). -/
theorem parseNumber_examples_and_totality :
    parseNumber "$1,234.50" = some (2469 / 2) ∧
    parseNumber "(500)" = some (-500) ∧
    parseNumber "12%" = some 12 ∧
    parseNumber "" = none ∧
    parseNumber "abc" = none ∧
    (∀ s : String, jsStrToNum (cleanedForm (jsTrimStr s)) = none → parseNumber s = none) := by
  refine ⟨by decide, by decide, by decide, by decide, by decide, ?_⟩
  intro s h
  unfold parseNumber
  by_cases ht : jsTrimStr s = ""
  · simp [ht]
  · simp [ht, h]

/-- Witness for C6's totality conjunct at the unparseable input `x7z`. -/
theorem parseNumber_examples_and_totality_witness :
    parseNumber "x7z" = none :=
  parseNumber_examples_and_totality.2.2.2.2.2 "x7z" (by decide)

/-- Claim C7: quoting (embedded comma, escaped quote) and the CRLF/LF
    equivalence of the CSV parser on the spec's concrete examples. -/
theorem parseCSV_quoting_and_line_endings :
    parseCSV "a,\"b,c\",d" = [["a", "b,c", "d"]] ∧
    parseCSV "a,\"b\"\"c\",d" = [["a", "b\"c", "d"]] ∧
    parseCSV "a,b\r\nc,d" = parseCSV "a,b\nc,d" ∧
    parseCSV "a,b\nc,d" = [["a", "b"], ["c", "d"]] := by
  decide

/-- Claim C8 (counterexample): a grid containing an interior zero-cell row
    satisfies the claim's cell constraint but does not round-trip — the
    empty row renders as an empty line, which re-parses as a row with one
    empty cell. -/
theorem csv_round_trip_counterexample :
    ¬ parseCSV (renderGrid [["a"], [], ["b"]]) = stripTrailingBlank [["a"], [], ["b"]] ∧
    (∀ r ∈ [["a"], [], ["b"]], ∀ s ∈ r, ∀ c ∈ s.data, cleanChB c = true) := by
  decide

/-- Claim C8 (amended): for every grid whose rows each have at least one
    cell and whose cells contain no comma, quote or line-terminator
    characters, rendering (comma-joined rows joined by newlines) and
    re-parsing yields the grid up to stripping of trailing all-blank rows. -/
theorem csv_round_trip :
    ∀ g : List (List String), (∀ r ∈ g, r ≠ []) →
      (∀ r ∈ g, ∀ s ∈ r, ∀ c ∈ s.data, cleanChB c = true) →
      parseCSV (renderGrid g) = stripTrailingBlank g := by
  intro g hne hcl
  rcases List.eq_nil_or_concat g with rfl | ⟨g1, g2, rfl⟩
  · decide
  · rw [List.concat_eq_append] at hne hcl ⊢
    unfold parseCSV renderGrid
    have hdata : (String.mk (charJoin '\n' ((g1 ++ [g2]).map (fun r => charJoin ',' (r.map String.data))))).data
        = charJoin '\n' ((g1.map (fun r => r.map String.data) ++ [g2.map String.data]).map (charJoin ',')) := by
      simp [List.map_map, Function.comp_def]
    rw [hdata, csvScan_grid (g1.map (fun r => r.map String.data)) (g2.map String.data) []
        ?hne2 ?hcl2]
    case hne2 =>
      intro R hR
      obtain ⟨r, hr, rfl⟩ := mem_mapped_grid g1 g2 R hR
      simpa using fun hnil => (hne r hr) (by simpa using hnil)
    case hcl2 =>
      intro R hR cell hcell c hc
      obtain ⟨r, hr, rfl⟩ := mem_mapped_grid g1 g2 R hR
      simp only [List.mem_map] at hcell
      obtain ⟨s, hs, rfl⟩ := hcell
      exact hcl r hr s hs c hc
    have hid : (String.mk ∘ String.data) = id := funext strMk_data
    congr 1
    simp [List.map_map, Function.comp_def, hid, List.map_id]

/-- Witness for the amended C8 round-trip at a concrete clean grid. -/
theorem csv_round_trip_witness :
    parseCSV (renderGrid [["a", "b"], ["c"]]) = stripTrailingBlank [["a", "b"], ["c"]] :=
  csv_round_trip [["a", "b"], ["c"]] (by decide) (by decide)

/-- Claim C9: the aggregator is deterministic — two invocations on identical
    name, text and initial capital produce identical records (the embedding
    is a pure function of its inputs). -/
theorem computeStats_deterministic :
    ∀ (name text : String) (ic : Option Q) (s1 s2 : PlayerStats),
      s1 = computePlayerStatsFromSheetCSV name text ic →
      s2 = computePlayerStatsFromSheetCSV name text ic → s1 = s2 := by
  intro _ _ _ _ _ h1 h2
  rw [h1, h2]

/-- Witness for C9 at concrete inputs. -/
theorem computeStats_deterministic_witness :
    computePlayerStatsFromSheetCSV "a" "x" none = computePlayerStatsFromSheetCSV "a" "x" none :=
  computeStats_deterministic "a" "x" none
    (computePlayerStatsFromSheetCSV "a" "x" none)
    (computePlayerStatsFromSheetCSV "a" "x" none) rfl rfl

/-- Claim C10: for every input, the produced stats record has no
    lastActivity — the combined journal header search requires seven
    headers but its name-keyed record can hold at most five, so the primary
    path is dead and the fallback never sets the field. -/
theorem lastActivity_always_absent :
    ∀ (name text : String) (ic : Option Q),
      (computePlayerStatsFromSheetCSV name text ic).lastActivity = none := by
  intro name text ic
  simp [computePlayerStatsFromSheetCSV, parseJournalTotals, journal_header_never_found]

end Leaderboard
